import Mathlib

/-!
Verification development for the BatchSignerTool repository.

Part 1 models the dynamically typed JavaScript values that the tool's
input validators operate on, and embeds the three validators from the
source: validateBatchTransaction and validateSeed (batchSignerTool.js)
and the web form's template validator (script.js, batchJsonInput input
handler).

Part 2 models the multi-party batch authorization protocol
(BatchAuthorization.commit / merge and the involvement checker).  The
commit and merge operations themselves live in the external xrpl
library (signMultiBatch / combineBatchSigners), not in this
repository, so they are modelled from the spec; the involvement
checker (checkSignerInvolvement) is embedded from the source.
-/

/-- A JavaScript value, as far as the validators inspect it. -/
inductive JsVal where
  | null
  | undefined
  | bool (b : Bool)
  | num (n : Int)
  | str (s : String)
  | arr (xs : List JsVal)
  | obj (fields : List (String × JsVal))

/-- JavaScript truthiness: null, undefined, false, 0 and the empty
string are falsy; objects and arrays are always truthy. -/
def jsTruthy : JsVal → Bool
  | .null => false
  | .undefined => false
  | .bool b => b
  | .num n => decide (n ≠ 0)
  | .str s => decide (s ≠ "")
  | .arr _ => true
  | .obj _ => true

/-- The typeof operator: null and arrays report "object". -/
def jsTypeof : JsVal → String
  | .null => "object"
  | .undefined => "undefined"
  | .bool _ => "boolean"
  | .num _ => "number"
  | .str _ => "string"
  | .arr _ => "object"
  | .obj _ => "object"

/-- Property access o.k: undefined on missing keys and non-objects. -/
def jsGet (v : JsVal) (k : String) : JsVal :=
  match v with
  | .obj fields =>
    match fields.find? (fun p => decide (p.1 = k)) with
    | some p => p.2
    | none => .undefined
  | _ => .undefined

/-- Strict equality of a value with a string literal (v === "s"). -/
def jsStrictEqStr (v : JsVal) (s : String) : Bool :=
  match v with
  | .str t => decide (t = s)
  | _ => false

/-- The .length property as read by the validators: defined for
arrays and strings, undefined otherwise (modelled as 0, matching the
falsy comparison undefined > 0 in the source). -/
def jsLength : JsVal → Nat
  | .arr xs => xs.length
  | .str s => s.length
  | _ => 0

/-- ToUint32 coercion used by the bitwise test tx.Flags & 0x40000000:
numbers reduce modulo 2^32, true becomes 1, everything else (null,
undefined, objects, non-numeric strings) becomes 0. -/
def jsToUint32 : JsVal → Nat
  | .num n => (n % (2 ^ 32 : Int)).toNat
  | .bool true => 1
  | _ => 0

/-- validateBatchTransaction from batchSignerTool.js: requires a
truthy object, TransactionType === "Batch" and a non-empty
RawTransactions array; nothing else is checked. -/
def validateBatchTransaction (v : JsVal) : Except String Unit :=
  if jsTruthy v = false then
    .error "Invalid batch transaction: must be a valid JSON object"
  else if jsTypeof v ≠ "object" then
    .error "Invalid batch transaction: must be a valid JSON object"
  else if jsStrictEqStr (jsGet v "TransactionType") "Batch" = false then
    .error "Invalid batch transaction: TransactionType must be Batch"
  else
    match jsGet v "RawTransactions" with
    | .arr (_ :: _) => .ok ()
    | .arr [] => .error "Invalid batch transaction: must contain RawTransactions array"
    | _ => .error "Invalid batch transaction: must contain RawTransactions array"

/-- First-character test: seed.startsWith of a one-character string
is exactly a comparison of the first character. -/
def strStartsWithChar (s : String) (c : Char) : Bool :=
  match s.data with
  | [] => false
  | a :: _ => decide (a = c)

/-- validateSeed from batchSignerTool.js: the guard !seed makes the
empty string fail the first check even though it is a string. -/
def validateSeed (v : JsVal) : Except String Unit :=
  match v with
  | .str s =>
    if s = "" then .error "Invalid seed: must be a string"
    else if strStartsWithChar s 's' = false then .error "Invalid seed: must start with s"
    else if s.length < 25 then .error "Invalid seed: too short"
    else .ok ()
  | _ => .error "Invalid seed: must be a string"

/-- Per-entry check of the web form's RawTransactions.forEach loop
(script.js): the RawTransaction must be a truthy object with
Fee === "0", an empty or absent SigningPubKey, no TxnSignature, and
the tfInnerBatchTxn bit (bit 30) set in Flags. -/
def checkInner (entry : JsVal) : Except String Unit :=
  let tx := jsGet entry "RawTransaction"
  if jsTruthy tx = false then .error "Invalid RawTransaction"
  else if jsTypeof tx ≠ "object" then .error "Invalid RawTransaction"
  else if jsStrictEqStr (jsGet tx "Fee") "0" = false then .error "Fee must be 0"
  else if jsTruthy (jsGet tx "SigningPubKey") && !(jsStrictEqStr (jsGet tx "SigningPubKey") "") then
    .error "SigningPubKey must be empty"
  else if jsTruthy (jsGet tx "TxnSignature") then .error "TxnSignature not allowed"
  else if (jsToUint32 (jsGet tx "Flags")).testBit 30 = false then
    .error "Missing tfInnerBatchTxn flag"
  else .ok ()

/-- Sequential run of checkInner over all entries, stopping at the
first failure like the forEach loop's throw. -/
def webValidateInners : List JsVal → Except String Unit
  | [] => .ok ()
  | e :: rest => do
    checkInner e
    webValidateInners rest

/-- The web form's template validation (script.js, batchJsonInput
input handler): kind tag, outer Account, 2 to 8 inner transactions,
no pre-existing non-empty BatchSigners, then the per-inner checks. -/
def webValidate (v : JsVal) : Except String Unit :=
  if jsStrictEqStr (jsGet v "TransactionType") "Batch" = false then
    .error "TransactionType must be Batch"
  else if jsTruthy (jsGet v "Account") = false ∨ jsTypeof (jsGet v "Account") ≠ "string" then
    .error "Missing or invalid outer Account field"
  else
    match jsGet v "RawTransactions" with
    | .arr xs =>
      if xs.length < 2 ∨ 8 < xs.length then
        .error "RawTransactions must be an array with 2-8 items"
      else if jsTruthy (jsGet v "BatchSigners") && decide (0 < jsLength (jsGet v "BatchSigners")) then
        .error "Remove existing BatchSigners array - this tool adds one signer at a time"
      else webValidateInners xs
    | _ => .error "RawTransactions must be an array with 2-8 items"

deriving instance DecidableEq for Except

example : validateSeed (.str "sABCDEFGHIJKLMNOPQRSTUVWX") = .ok () := by decide
example : validateSeed (.str "sShort") = .error "Invalid seed: too short" := by decide
example : validateSeed (.str "") = .error "Invalid seed: must be a string" := by decide
example : validateSeed (.num 3) = .error "Invalid seed: must be a string" := by decide

/-!
Part 2: the multi-party batch authorization protocol.
-/

/-- Ledger account identifier.  The canonical account-identifier
ordering of the wire format is modelled by the linear order on the
identifier strings. -/
abbrev Addr := String

/-- One inner transaction of a batch: the acting account plus its
operation-specific payload. -/
structure InnerTx where
  transactionKind : String
  actingAccount : Addr
  operationFields : List (String × String)
deriving DecidableEq, Inhabited

/-- A batch template: outer submitter, policy flag bitmask, ordered
inner transactions. -/
structure BatchTemplate where
  submitterAddress : Addr
  authorizationFlags : Nat
  innerTransactions : List InnerTx
deriving DecidableEq, Inhabited

/-- Modelled from the spec: the canonical digest of the invariant
part of a batch (protocol tag, authorizationFlags, the ordered inner
transactions).  The ledger hash function is collision-free, so it is
modelled symbolically by an injective constructor. -/
inductive Digest where
  | mk (tag : Nat) (flags : Nat) (inners : List InnerTx)
deriving DecidableEq

/-- Modelled from the spec: the fixed protocol tag byte string that
heads the digest input. -/
def batchSigTag : Nat := 0x42434800

/-- Modelled from the spec: digest derivation of section 4.1 step 2,
over the authorization flags and the ordered inner transactions. -/
def deriveDigest (t : BatchTemplate) : Digest :=
  .mk batchSigTag t.authorizationFlags t.innerTransactions

/-- A signing keypair.  The private component is never inspected by
the protocol (it never leaves the signing call), so only the derived
address and public key are carried. -/
structure Keypair where
  address : Addr
  pub : String
deriving DecidableEq, Inhabited

/-- Modelled from the spec: a signature, symbolically the pair of the
signing key's public half and the signed digest (the standard
symbolic model of an unforgeable deterministic signature scheme). -/
structure Sig where
  signingPub : String
  signedDigest : Digest
deriving DecidableEq

/-- Modelled from the spec: deterministic signing with a keypair. -/
def signDigest (kp : Keypair) (d : Digest) : Sig :=
  ⟨kp.pub, d⟩

/-- Modelled from the spec: signature verification against a public
key and a digest. -/
def verifySig (s : Sig) (pub : String) (d : Digest) : Bool :=
  decide (s.signingPub = pub ∧ s.signedDigest = d)

/-- A signer's commitment to a batch. -/
structure SignerCommitment where
  signerAddress : Addr
  signerPublicKey : String
  commitmentSignature : Sig
deriving DecidableEq

/-- A merged batch transaction: the template fields plus the ordered
signer commitments. -/
structure BatchTransaction where
  submitterAddress : Addr
  authorizationFlags : Nat
  innerTransactions : List InnerTx
  signerCommitments : List SignerCommitment
deriving DecidableEq

/-- Error taxonomy of the protocol (spec section 7). -/
inductive BatchError where
  | invalidBatchStructure (msg : String)
  | selfCommitmentRejected
  | invalidSignerCommitment (address : Addr)
deriving DecidableEq

/-- The four execution-policy flag bits of the authorization mask
(allOrNothing, onlyOne, untilFailure, independent). -/
def policyBits : List Nat := [16, 17, 18, 19]

/-- Number of policy bits set in an authorization flag mask. -/
def policyBitCount (flags : Nat) : Nat :=
  (policyBits.filter (fun b => flags.testBit b)).length

/-- Modelled from the spec: BatchAuthorization.commit (section 4.1),
which the repository delegates to the xrpl library's signMultiBatch.
Validates the preconditions, derives the digest and signs it. -/
def commit (t : BatchTemplate) (signerAddress : Addr) (kp : Keypair) :
    Except BatchError SignerCommitment :=
  if signerAddress = t.submitterAddress then
    .error .selfCommitmentRejected
  else if t.innerTransactions.isEmpty then
    .error (.invalidBatchStructure "empty innerTransactions")
  else if policyBitCount t.authorizationFlags ≠ 1 then
    .error (.invalidBatchStructure "authorizationFlags must have exactly one policy bit set")
  else
    .ok ⟨signerAddress, kp.pub, signDigest kp (deriveDigest t)⟩

/-- Verification of one commitment against the digest re-derived from
a template (spec section 4.2 step 3). -/
def verifyCommitment (t : BatchTemplate) (c : SignerCommitment) : Bool :=
  verifySig c.commitmentSignature c.signerPublicKey (deriveDigest t)

/-- Comparison of commitments by signer address, the sort key of the
canonical wire-format ordering. -/
abbrev commitLE (a b : SignerCommitment) : Prop :=
  a.signerAddress ≤ b.signerAddress

/-- Strict version of commitLE. -/
abbrev commitLT (a b : SignerCommitment) : Prop :=
  a.signerAddress < b.signerAddress

instance : IsTotal SignerCommitment commitLE :=
  ⟨fun a b => le_total a.signerAddress b.signerAddress⟩

instance : IsTrans SignerCommitment commitLE :=
  ⟨fun _ _ _ h₁ h₂ => le_trans h₁ h₂⟩

instance : IsAntisymm SignerCommitment commitLT :=
  ⟨fun _ _ h₁ h₂ => absurd h₂ (lt_asymm h₁)⟩

/-- Modelled from the spec: deduplication by signer address with the
later occurrence winning (section 4.2 step 1): an element is dropped
when a later element carries the same address. -/
def dedupLastWins : List SignerCommitment → List SignerCommitment
  | [] => []
  | c :: rest =>
    if rest.any (fun c2 => decide (c2.signerAddress = c.signerAddress)) then
      dedupLastWins rest
    else
      c :: dedupLastWins rest

/-- Modelled from the spec: BatchAuthorization.merge (section 4.2),
which the repository delegates to the xrpl library's
combineBatchSigners.  Dedup, sort canonically, verify every
commitment against the re-derived digest, and attach the result to a
copy of the template. -/
def merge (t : BatchTemplate) (cs : List SignerCommitment) :
    Except BatchError BatchTransaction :=
  match (List.insertionSort commitLE (dedupLastWins cs)).find?
      (fun c => !(verifyCommitment t c)) with
  | some c => .error (.invalidSignerCommitment c.signerAddress)
  | none =>
    .ok ⟨t.submitterAddress, t.authorizationFlags, t.innerTransactions,
        List.insertionSort commitLE (dedupLastWins cs)⟩

/-- Result classification of the involvement checker when it does not
throw: either the signer acts in some inner transactions (their
count) or it is uninvolved and only warned about. -/
inductive Involvement where
  | activeSigner (count : Nat)
  | uninvolvedWarning
deriving DecidableEq

/-- checkSignerInvolvement from batchSignerTool.js: collect the inner
acting accounts equal to the candidate, throw if the candidate is the
batch submitter (with a message that depends on whether it also acts
in inner transactions), otherwise warn when uninvolved or report the
involvement count. -/
def checkSignerInvolvement (t : BatchTemplate) (signerAddress : Addr) :
    Except String Involvement :=
  let involvedAccounts :=
    (t.innerTransactions.map InnerTx.actingAccount).filter
      (fun account => decide (account = signerAddress))
  if t.submitterAddress = signerAddress then
    .error
      (if 0 < involvedAccounts.length then
        "is the batch submitter (parent account) AND is also submitting inner transactions"
      else
        "is the batch submitter (parent account)")
  else if involvedAccounts.length = 0 then
    .ok .uninvolvedWarning
  else
    .ok (.activeSigner involvedAccounts.length)

/-!
Heap model of the signing call sites.  The source signs on a shallow
copy of the batch object (const txToSign = { ...batchTx };
signMultiBatch(signerWallet, txToSign)), so the top-level record is
copied while the RawTransactions array is shared by reference.
Objects live in a store addressed by index; the shared inner
transaction arrays live in a second store.
-/

/-- Top-level JavaScript batch object: scalar fields inline, the
RawTransactions array held by reference, and the BatchSigners field
that signMultiBatch writes. -/
structure BatchObj where
  account : Addr
  flags : Nat
  rawRef : Nat
  batchSigners : Option (List SignerCommitment)
deriving DecidableEq, Inhabited

/-- The object heap: batch objects addressed by index, plus the store
of shared RawTransactions arrays. -/
structure Heap where
  objs : List BatchObj
  inners : List (List InnerTx)
deriving DecidableEq

/-- The spread { ...batchTx }: allocates a fresh top-level object with
the same fields (the RawTransactions reference is shared) and returns
its address. -/
def spreadCopy (h : Heap) (i : Nat) : Heap × Nat :=
  ({ h with objs := h.objs ++ [h.objs.getD i default] }, h.objs.length)

/-- Top-level field write txToSign.BatchSigners = [...]. -/
def setBatchSigners (h : Heap) (j : Nat) (cs : List SignerCommitment) : Heap :=
  { h with objs := h.objs.set j { h.objs.getD j default with batchSigners := some cs } }

/-- The batch template content reachable from the object at an
address. -/
def templOf (h : Heap) (i : Nat) : BatchTemplate :=
  let o := h.objs.getD i default
  ⟨o.account, o.flags, h.inners.getD o.rawRef []⟩

/-- The signing call site of generateBatchSignature and
generateMultipleBatchSignatures: shallow-copy the batch object, run
the signing step on the copy, read BatchSigners[0] off the copy.
signMultiBatch itself is modelled from the spec: it derives the
commitment from the object's template content and writes only the
top-level BatchSigners field of the object it is handed. -/
def generateSignatureRun (h : Heap) (i : Nat) (a : Addr) (kp : Keypair) :
    Except BatchError (Heap × Nat × SignerCommitment) :=
  let copied := spreadCopy h i
  match commit (templOf copied.1 copied.2) a kp with
  | .error e => .error e
  | .ok c => .ok (setBatchSigners copied.1 copied.2 [c], copied.2, c)

/-!
Helper lemmas.
-/

/-- getD of an append stays in the left part below its length. -/
theorem getD_append_lt {α : Type} (l l' : List α) (i : Nat) (d : α)
    (h : i < l.length) : (l ++ l').getD i d = l.getD i d := by
  induction l generalizing i with
  | nil => cases h
  | cons a t ih =>
    cases i with
    | zero => rfl
    | succ n =>
      simp only [List.cons_append, List.getD_cons_succ]
      exact ih n (Nat.lt_of_succ_lt_succ h)

/-- getD is unchanged by a set at a different index. -/
theorem getD_set_ne {α : Type} (l : List α) (j i : Nat) (x : α) (d : α)
    (h : i ≠ j) : (l.set j x).getD i d = l.getD i d := by
  induction l generalizing i j with
  | nil => rfl
  | cons a t ih =>
    cases j with
    | zero =>
      cases i with
      | zero => exact absurd rfl h
      | succ n => rfl
    | succ m =>
      cases i with
      | zero => rfl
      | succ n =>
        simp only [List.set_cons_succ, List.getD_cons_succ]
        exact ih m n (fun hc => h (by rw [hc]))

/-- Every element kept by dedupLastWins comes from the input. -/
theorem mem_of_mem_dedupLastWins {c : SignerCommitment}
    {cs : List SignerCommitment} (h : c ∈ dedupLastWins cs) : c ∈ cs := by
  induction cs with
  | nil => cases h
  | cons a t ih =>
    unfold dedupLastWins at h
    by_cases hany : t.any (fun c2 => decide (c2.signerAddress = a.signerAddress))
    · simp only [hany, if_true] at h
      exact List.mem_cons_of_mem a (ih h)
    · simp only [hany, if_false] at h
      rcases List.mem_cons.mp h with h1 | h2
      · exact h1 ▸ List.mem_cons_self a t
      · exact List.mem_cons_of_mem a (ih h2)

/-- dedupLastWins keeps at least the final element. -/
theorem dedupLastWins_ne_nil {cs : List SignerCommitment} (h : cs ≠ []) :
    dedupLastWins cs ≠ [] := by
  induction cs with
  | nil => exact absurd rfl h
  | cons a t ih =>
    unfold dedupLastWins
    by_cases hany : t.any (fun c2 => decide (c2.signerAddress = a.signerAddress))
    · simp only [hany, if_true]
      have ht : t ≠ [] := by
        intro hnil
        rw [hnil] at hany
        simp [List.any] at hany
      exact ih ht
    · simp only [hany, if_false]
      exact List.cons_ne_nil a (dedupLastWins t)

/-- On a list with pairwise distinct signer addresses dedupLastWins
is the identity. -/
theorem dedupLastWins_eq_self {cs : List SignerCommitment}
    (h : (cs.map SignerCommitment.signerAddress).Nodup) :
    dedupLastWins cs = cs := by
  induction cs with
  | nil => rfl
  | cons a t ih =>
    simp only [List.map_cons, List.nodup_cons] at h
    unfold dedupLastWins
    have hany : t.any (fun c2 => decide (c2.signerAddress = a.signerAddress)) = false := by
      rw [List.any_eq_false]
      intro c2 hc2
      simp only [decide_eq_true_eq]
      intro heq
      exact h.1 (heq ▸ List.mem_map_of_mem SignerCommitment.signerAddress hc2)
    rw [hany]
    simp only [Bool.false_eq_true, if_false]
    rw [ih h.2]

/-- On a non-empty list whose elements all satisfy p, find? returns
the head, in particular some member. -/
theorem find?_some_of_all {α : Type} {l : List α} {p : α → Bool}
    (hne : l ≠ []) (hall : ∀ x ∈ l, p x = true) :
    ∃ x, l.find? p = some x ∧ x ∈ l := by
  cases l with
  | nil => exact absurd rfl hne
  | cons a t =>
    refine ⟨a, ?_, List.mem_cons_self a t⟩
    rw [List.find?_cons, hall a (List.mem_cons_self a t)]

/-- Per-address filter of the dedup result: exactly the last input
occurrence for that address, nothing when the address is absent. -/
theorem filter_dedupLastWins (cs : List SignerCommitment) (a : Addr) :
    (dedupLastWins cs).filter (fun c => decide (c.signerAddress = a)) =
      match cs.reverse.find? (fun c => decide (c.signerAddress = a)) with
      | some c => [c]
      | none => [] := by
  induction cs with
  | nil => rfl
  | cons x t ih =>
    rw [List.reverse_cons, List.find?_append]
    unfold dedupLastWins
    by_cases hany : t.any (fun c2 => decide (c2.signerAddress = x.signerAddress)) = true
    · rw [if_pos hany]
      by_cases hx : x.signerAddress = a
      · obtain ⟨c2, hc2mem, hc2⟩ := List.any_eq_true.mp hany
        have hc2a : (fun c => decide (c.signerAddress = a)) c2 = true := by
          simp only [decide_eq_true_eq] at hc2 ⊢
          rw [hc2, hx]
        have : ∃ y, t.reverse.find? (fun c => decide (c.signerAddress = a)) = some y := by
          cases hfind : t.reverse.find? (fun c => decide (c.signerAddress = a)) with
          | some y => exact ⟨y, rfl⟩
          | none =>
            exact absurd hc2a
              (List.find?_eq_none.mp hfind c2 (List.mem_reverse.mpr hc2mem))
        obtain ⟨y, hy⟩ := this
        rw [hy] at ih ⊢
        exact ih
      · have hxl : List.find? (fun c => decide (c.signerAddress = a)) [x] = none := by
          simp [hx]
        rw [hxl, Option.or_none]
        exact ih
    · rw [if_neg hany]
      by_cases hx : x.signerAddress = a
      · have hnone : t.reverse.find? (fun c => decide (c.signerAddress = a)) = none := by
          rw [List.find?_eq_none]
          intro c2 hc2
          simp only [decide_eq_true_eq]
          intro hc2a
          exact hany (List.any_eq_true.mpr
            ⟨c2, List.mem_reverse.mp hc2, by simp [hc2a, hx]⟩)
        have hxl : List.find? (fun c => decide (c.signerAddress = a)) [x] = some x := by
          simp [hx]
        rw [hnone, hxl, Option.none_or]
        rw [List.filter_cons_of_pos (by simp [hx])]
        rw [ih, hnone]
      · have hxl : List.find? (fun c => decide (c.signerAddress = a)) [x] = none := by
          simp [hx]
        rw [hxl, Option.or_none]
        rw [List.filter_cons_of_neg (by simp [hx])]
        exact ih

/-- Elimination of a successful merge: the output carries the
template fields plus the sorted dedup of the inputs, and every
attached commitment verifies against the template. -/
theorem merge_ok_elim {t : BatchTemplate} {cs : List SignerCommitment}
    {b : BatchTransaction} (h : merge t cs = .ok b) :
    b = ⟨t.submitterAddress, t.authorizationFlags, t.innerTransactions,
        List.insertionSort commitLE (dedupLastWins cs)⟩ ∧
    ∀ c ∈ List.insertionSort commitLE (dedupLastWins cs),
      verifyCommitment t c = true := by
  unfold merge at h
  cases hfind : (List.insertionSort commitLE (dedupLastWins cs)).find?
      (fun c => !(verifyCommitment t c)) with
  | some c =>
    rw [hfind] at h
    cases h
  | none =>
    rw [hfind] at h
    refine ⟨?_, ?_⟩
    · injection h with h2
      exact h2.symm
    · intro c hc
      have := List.find?_eq_none.mp hfind c hc
      simpa using this

/-- A sorted list whose signer addresses are pairwise distinct is
strictly sorted. -/
theorem sorted_lt_of_sorted_le {l : List SignerCommitment}
    (hs : List.Sorted commitLE l)
    (hnd : (l.map SignerCommitment.signerAddress).Nodup) :
    List.Sorted commitLT l := by
  have hne : List.Pairwise
      (fun a b : SignerCommitment => a.signerAddress ≠ b.signerAddress) l :=
    List.pairwise_map.mp hnd
  exact (List.Pairwise.and hs hne).imp (fun h => lt_of_le_of_ne h.1 h.2)

/-- strStartsWithChar tests exactly the first character. -/
theorem strStartsWithChar_iff (s : String) (c : Char) :
    strStartsWithChar s c = true ↔ s.data.head? = some c := by
  unfold strStartsWithChar
  cases s.data with
  | nil => simp
  | cons a t => simp [List.head?]

/-- C9: seed validation accepts an input exactly when it is a string
whose first character is s and whose length is at least 25; every
other input throws, and no further check (checksum, alphabet) is
performed. -/
theorem validateSeed_characterization (v : JsVal) :
    (validateSeed v = .ok () ↔
      ∃ s, v = JsVal.str s ∧ s.data.head? = some 's' ∧ 25 ≤ s.length) ∧
    ((¬ ∃ s, v = JsVal.str s ∧ s.data.head? = some 's' ∧ 25 ≤ s.length) →
      ∃ m, validateSeed v = .error m) := by
  have hmain : validateSeed v = .ok () ↔
      ∃ s, v = JsVal.str s ∧ s.data.head? = some 's' ∧ 25 ≤ s.length := by
    cases v with
    | str s =>
      simp only [validateSeed]
      constructor
      · intro h
        by_cases h1 : s = ""
        · rw [if_pos h1] at h; cases h
        · rw [if_neg h1] at h
          by_cases h2 : strStartsWithChar s 's' = false
          · rw [if_pos h2] at h; cases h
          · rw [if_neg h2] at h
            by_cases h3 : s.length < 25
            · rw [if_pos h3] at h; cases h
            · refine ⟨s, rfl, ?_, Nat.le_of_not_lt h3⟩
              exact (strStartsWithChar_iff s 's').mp (Bool.of_not_eq_false h2)
      · rintro ⟨s', hs', hhead, hlen⟩
        injection hs' with hse
        subst hse
        have h1 : s ≠ "" := by
          intro hnil
          rw [hnil] at hhead
          cases hhead
        have h2 : ¬ strStartsWithChar s 's' = false := by
          rw [Bool.not_eq_false, strStartsWithChar_iff]
          exact hhead
        have h3 : ¬ s.length < 25 := Nat.not_lt_of_le hlen
        rw [if_neg h1, if_neg h2, if_neg h3]
    | null => simp [validateSeed]
    | undefined => simp [validateSeed]
    | bool b => simp [validateSeed]
    | num n => simp [validateSeed]
    | arr xs => simp [validateSeed]
    | obj fs => simp [validateSeed]
  refine ⟨hmain, fun hno => ?_⟩
  cases hval : validateSeed v with
  | error m => exact ⟨m, rfl⟩
  | ok u =>
    cases u
    exact absurd (hmain.mp hval) hno

/-- A batch template whose single inner transaction carries the
non-zero fee "5": a defect in the claim's list that the validator
run before commitment generation does not look at. -/
def nonzeroFeeInnerTx : JsVal :=
  .obj [("TransactionType", .str "Payment"),
        ("Account", .str "rChild1"),
        ("Destination", .str "rChild2"),
        ("Amount", .str "1000000"),
        ("Fee", .str "5"),
        ("SigningPubKey", .str ""),
        ("Flags", .num 1073741824)]

/-- Batch template wrapping nonzeroFeeInnerTx. -/
def nonzeroFeeTemplate : JsVal :=
  .obj [("TransactionType", .str "Batch"),
        ("Account", .str "rParent"),
        ("Flags", .num 262144),
        ("RawTransactions", .arr [.obj [("RawTransaction", nonzeroFeeInnerTx)]])]

/-- C1 counterexample: the template's inner transaction has fee "5"
(a malformation the claim lists), yet validateBatchTransaction, the
validation run before commitment generation, accepts it. -/
theorem validateBatchTransaction_accepts_nonzero_inner_fee :
    validateBatchTransaction nonzeroFeeTemplate = .ok () ∧
    jsGet nonzeroFeeInnerTx "Fee" = .str "5" :=
  ⟨by decide, rfl⟩

/-- C1 (amended): the validation run before commitment generation
checks only that the template is a truthy object, that its kind tag
is Batch, and that its inner-transaction list is a non-empty array;
it succeeds exactly on those templates.  Inner fees, signing keys,
signatures, the inner execution flag bit and the policy-bit count of
authorizationFlags are not inspected (the web form checks the inner
fields but not the policy bits, and demands 2 to 8 inner
transactions). -/
theorem validateBatchTransaction_characterization (v : JsVal) :
    validateBatchTransaction v = .ok () ↔
      (jsTruthy v = true ∧ jsTypeof v = "object" ∧
       jsStrictEqStr (jsGet v "TransactionType") "Batch" = true ∧
       ∃ x xs, jsGet v "RawTransactions" = JsVal.arr (x :: xs)) := by
  unfold validateBatchTransaction
  by_cases h1 : jsTruthy v = false
  · rw [if_pos h1, h1]
    simp
  · rw [if_neg h1]
    have h1t : jsTruthy v = true := Bool.of_not_eq_false h1
    by_cases h2 : jsTypeof v ≠ "object"
    · rw [if_pos h2]
      simp [h2]
    · rw [if_neg h2]
      rw [not_not] at h2
      by_cases h3 : jsStrictEqStr (jsGet v "TransactionType") "Batch" = false
      · rw [if_pos h3, h3]
        simp
      · rw [if_neg h3]
        have h3t : jsStrictEqStr (jsGet v "TransactionType") "Batch" = true :=
          Bool.of_not_eq_false h3
        cases hrt : jsGet v "RawTransactions" with
        | arr ys =>
          cases ys with
          | nil => simp [h1t, h2, h3t]
          | cons y t => simp [h1t, h2, h3t]
        | null => simp [h1t, h2, h3t]
        | undefined => simp [h1t, h2, h3t]
        | bool b => simp [h1t, h2, h3t]
        | num n => simp [h1t, h2, h3t]
        | str s => simp [h1t, h2, h3t]
        | obj fs => simp [h1t, h2, h3t]

/-- C10: the web form's template validation rejects every template
whose BatchSigners field is already a non-empty array, whatever the
rest of the template looks like. -/
theorem webValidate_rejects_existing_batchSigners (v : JsVal)
    (h : ∃ x xs, jsGet v "BatchSigners" = JsVal.arr (x :: xs)) :
    ∃ m, webValidate v = .error m := by
  obtain ⟨x, xs, hbs⟩ := h
  unfold webValidate
  by_cases h1 : jsStrictEqStr (jsGet v "TransactionType") "Batch" = false
  · rw [if_pos h1]; exact ⟨_, rfl⟩
  · rw [if_neg h1]
    by_cases h2 : jsTruthy (jsGet v "Account") = false ∨
        jsTypeof (jsGet v "Account") ≠ "string"
    · rw [if_pos h2]; exact ⟨_, rfl⟩
    · rw [if_neg h2]
      split
      · next ys heq =>
          by_cases h3 : ys.length < 2 ∨ 8 < ys.length
          · rw [if_pos h3]; exact ⟨_, rfl⟩
          · rw [if_neg h3]
            have hcond : (jsTruthy (jsGet v "BatchSigners") &&
                decide (0 < jsLength (jsGet v "BatchSigners"))) = true := by
              rw [hbs]
              simp [jsTruthy, jsLength]
            rw [if_pos hcond]
            exact ⟨_, rfl⟩
      · exact ⟨_, rfl⟩

/-- A well-formed inner payment entry for the witness template. -/
def witnessInnerEntry (acct dest : String) : JsVal :=
  .obj [("RawTransaction",
    .obj [("TransactionType", .str "Payment"),
          ("Account", .str acct),
          ("Destination", .str dest),
          ("Amount", .str "1000000"),
          ("Fee", .str "0"),
          ("SigningPubKey", .str ""),
          ("Flags", .num 1073741824)])]

/-- An otherwise well-formed template that already carries a
non-empty BatchSigners array. -/
def templateWithSigners : JsVal :=
  .obj [("TransactionType", .str "Batch"),
        ("Account", .str "rParent"),
        ("Flags", .num 262144),
        ("RawTransactions",
          .arr [witnessInnerEntry "rChild1" "rChild2",
                witnessInnerEntry "rChild2" "rChild1"]),
        ("BatchSigners",
          .arr [.obj [("BatchSigner", .obj [("Account", .str "rChild1")])]])]

/-- Witness for C10 at a concrete otherwise well-formed template. -/
theorem webValidate_rejects_existing_batchSigners_witness :
    ∃ m, webValidate templateWithSigners = .error m :=
  webValidate_rejects_existing_batchSigners templateWithSigners ⟨_, _, rfl⟩

/-- C2: a commitment request for the template's own submitter address
fails with the self-commitment rejection before any signature is
produced, and the tool's involvement check that runs ahead of signing
throws on the submitter as well; both hold for every template, in
particular when the submitter also acts in inner transactions. -/
theorem commit_rejects_self_commitment (t : BatchTemplate) (kp : Keypair) :
    commit t t.submitterAddress kp = .error .selfCommitmentRejected ∧
    ∃ m, checkSignerInvolvement t t.submitterAddress = .error m := by
  constructor
  · unfold commit
    rw [if_pos rfl]
  · simp only [checkSignerInvolvement]
    exact ⟨_, if_pos trivial⟩

/-- C6: the involvement checker throws exactly on the submitter
address; a non-submitter acting in at least one inner transaction
proceeds with a positive involvement count, and a non-submitter
appearing nowhere proceeds with only the non-fatal warning. -/
theorem checkSignerInvolvement_classification (t : BatchTemplate) (a : Addr) :
    ((∃ m, checkSignerInvolvement t a = .error m) ↔ t.submitterAddress = a) ∧
    (t.submitterAddress ≠ a →
      a ∈ t.innerTransactions.map InnerTx.actingAccount →
      ∃ n, 0 < n ∧ checkSignerInvolvement t a = .ok (.activeSigner n)) ∧
    (t.submitterAddress ≠ a →
      a ∉ t.innerTransactions.map InnerTx.actingAccount →
      checkSignerInvolvement t a = .ok .uninvolvedWarning) := by
  have hmem : a ∈ t.innerTransactions.map InnerTx.actingAccount ↔
      0 < ((t.innerTransactions.map InnerTx.actingAccount).filter
        (fun account => decide (account = a))).length := by
    rw [List.length_pos]
    constructor
    · intro hin hnil
      have := List.filter_eq_nil_iff.mp hnil a hin
      simp at this
    · intro hne
      by_contra habs
      apply hne
      rw [List.filter_eq_nil_iff]
      intro x hx
      simp only [decide_eq_true_eq]
      intro hxa
      exact habs (hxa ▸ hx)
  refine ⟨?_, ?_, ?_⟩
  · constructor
    · rintro ⟨m, hm⟩
      by_contra hsub
      simp only [checkSignerInvolvement] at hm
      rw [if_neg hsub] at hm
      by_cases hlen : ((t.innerTransactions.map InnerTx.actingAccount).filter
          (fun account => decide (account = a))).length = 0
      · rw [if_pos hlen] at hm
        cases hm
      · rw [if_neg hlen] at hm
        cases hm
    · intro hsub
      simp only [checkSignerInvolvement]
      rw [if_pos hsub]
      exact ⟨_, rfl⟩
  · intro hsub hin
    have hlen := hmem.mp hin
    refine ⟨_, hlen, ?_⟩
    simp only [checkSignerInvolvement]
    rw [if_neg hsub, if_neg (Nat.pos_iff_ne_zero.mp hlen)]
  · intro hsub hnin
    have hlen : ((t.innerTransactions.map InnerTx.actingAccount).filter
        (fun account => decide (account = a))).length = 0 := by
      by_contra habs
      exact hnin (hmem.mpr (Nat.pos_of_ne_zero habs))
    simp only [checkSignerInvolvement]
    rw [if_neg hsub, if_pos hlen]

/-- C8: commit is deterministic under replay: two runs on the same
template and keypair return the same commitment, carrying the
requested address and the keypair's public key, and both results
verify against the digest re-derived from the template. -/
theorem commit_deterministic_replay (t : BatchTemplate) (a : Addr)
    (kp : Keypair) (c1 c2 : SignerCommitment)
    (h1 : commit t a kp = .ok c1) (h2 : commit t a kp = .ok c2) :
    c1 = c2 ∧ c1.signerAddress = a ∧ c1.signerPublicKey = kp.pub ∧
    verifyCommitment t c1 = true ∧ verifyCommitment t c2 = true := by
  have hc : c1 = c2 := by
    rw [h1] at h2
    injection h2
  have hshape : c1 = ⟨a, kp.pub, signDigest kp (deriveDigest t)⟩ := by
    unfold commit at h1
    split_ifs at h1 with ha hb hc3
    cases h1
    rfl
  have hver : verifyCommitment t c1 = true := by
    rw [hshape]
    unfold verifyCommitment verifySig signDigest
    simp
  exact ⟨hc, by rw [hshape], by rw [hshape], hver, hc ▸ hver⟩

/-- First inner payment of the running example. -/
def innerPay1 : InnerTx :=
  ⟨"Payment", "rChild1", [("Destination", "rChild2"), ("Amount", "1000000")]⟩

/-- Second inner payment of the running example. -/
def innerPay2 : InnerTx :=
  ⟨"Payment", "rChild2", [("Destination", "rChild1"), ("Amount", "1000000")]⟩

/-- Running example template: untilFailure policy flag, two inner
payments between the two child accounts, submitted by the parent. -/
def exampleTemplate : BatchTemplate := ⟨"rParent", 262144, [innerPay1, innerPay2]⟩

/-- Keypair of the first child account. -/
def kpChild1 : Keypair := ⟨"rChild1", "EDpub1"⟩

/-- Keypair of the second child account. -/
def kpChild2 : Keypair := ⟨"rChild2", "EDpub2"⟩

/-- Commitment of child 1 to the example template. -/
def commitA : SignerCommitment :=
  ⟨"rChild1", "EDpub1", ⟨"EDpub1", deriveDigest exampleTemplate⟩⟩

/-- Commitment of child 2 to the example template. -/
def commitB : SignerCommitment :=
  ⟨"rChild2", "EDpub2", ⟨"EDpub2", deriveDigest exampleTemplate⟩⟩

/-- A reissued commitment of child 1 under a rotated key. -/
def commitA2 : SignerCommitment :=
  ⟨"rChild1", "EDpub1b", ⟨"EDpub1b", deriveDigest exampleTemplate⟩⟩

/-- Witness for C8 at the example template and child 1's keypair. -/
theorem commit_deterministic_replay_witness :
    ∃ c, commit exampleTemplate "rChild1" kpChild1 = .ok c ∧
      verifyCommitment exampleTemplate c = true := by
  have h : commit exampleTemplate "rChild1" kpChild1 = .ok commitA := by decide
  exact ⟨commitA, h,
    (commit_deterministic_replay exampleTemplate "rChild1" kpChild1
      commitA commitA h h).2.2.2.1⟩

/-- Witness for C6 at the example template: child 1 is an active
signer, an outsider only draws the warning, and the submitter is the
only blocked address. -/
theorem checkSignerInvolvement_classification_witness :
    (∃ n, 0 < n ∧ checkSignerInvolvement exampleTemplate "rChild1" =
      .ok (.activeSigner n)) ∧
    checkSignerInvolvement exampleTemplate "rOutsider" = .ok .uninvolvedWarning ∧
    ∃ m, checkSignerInvolvement exampleTemplate "rParent" = .error m := by
  refine ⟨?_, ?_, ?_⟩
  · exact (checkSignerInvolvement_classification exampleTemplate "rChild1").2.1
      (by decide) (by decide)
  · exact (checkSignerInvolvement_classification exampleTemplate "rOutsider").2.2
      (by decide) (by decide)
  · exact (checkSignerInvolvement_classification exampleTemplate "rParent").1.mpr rfl

/-- C3: on a sequence of valid commitments with pairwise distinct
addresses, merge succeeds with a commitment list that is a
permutation of the input sorted by the canonical address ordering,
and any permutation of the input yields the identical output. -/
theorem merge_canonical_ordering (t : BatchTemplate)
    (cs cs' : List SignerCommitment)
    (hval : ∀ c ∈ cs, verifyCommitment t c = true)
    (hnd : (cs.map SignerCommitment.signerAddress).Nodup)
    (hperm : List.Perm cs' cs) :
    ∃ b, merge t cs = .ok b ∧ merge t cs' = .ok b ∧
      List.Sorted commitLE b.signerCommitments ∧
      List.Perm b.signerCommitments cs := by
  have hnd' : (cs'.map SignerCommitment.signerAddress).Nodup :=
    (List.Perm.nodup_iff (hperm.map SignerCommitment.signerAddress)).mpr hnd
  have hd1 : dedupLastWins cs = cs := dedupLastWins_eq_self hnd
  have hd2 : dedupLastWins cs' = cs' := dedupLastWins_eq_self hnd'
  have hp1 : List.Perm (List.insertionSort commitLE cs) cs :=
    List.perm_insertionSort commitLE cs
  have hp2 : List.Perm (List.insertionSort commitLE cs') cs' :=
    List.perm_insertionSort commitLE cs'
  have hs1 : List.Sorted commitLE (List.insertionSort commitLE cs) :=
    List.sorted_insertionSort commitLE cs
  have hs2 : List.Sorted commitLE (List.insertionSort commitLE cs') :=
    List.sorted_insertionSort commitLE cs'
  have hnds1 : ((List.insertionSort commitLE cs).map
      SignerCommitment.signerAddress).Nodup :=
    (List.Perm.nodup_iff (hp1.map SignerCommitment.signerAddress)).mpr hnd
  have hnds2 : ((List.insertionSort commitLE cs').map
      SignerCommitment.signerAddress).Nodup :=
    (List.Perm.nodup_iff (hp2.map SignerCommitment.signerAddress)).mpr hnd'
  have heq : List.insertionSort commitLE cs' = List.insertionSort commitLE cs :=
    List.eq_of_perm_of_sorted (hp2.trans (hperm.trans hp1.symm))
      (sorted_lt_of_sorted_le hs2 hnds2) (sorted_lt_of_sorted_le hs1 hnds1)
  have hfind1 : (List.insertionSort commitLE cs).find?
      (fun c => !(verifyCommitment t c)) = none := by
    rw [List.find?_eq_none]
    intro x hx
    simp [hval x (hp1.subset hx)]
  have hm1 : merge t cs = .ok ⟨t.submitterAddress, t.authorizationFlags,
      t.innerTransactions, List.insertionSort commitLE cs⟩ := by
    unfold merge
    rw [hd1, hfind1]
  have hm2 : merge t cs' = .ok ⟨t.submitterAddress, t.authorizationFlags,
      t.innerTransactions, List.insertionSort commitLE cs⟩ := by
    unfold merge
    rw [hd2, heq, hfind1]
  exact ⟨_, hm1, hm2, hs1, hp1⟩

/-- Witness for C3: the two example commitments supplied in either
order merge to the same output, sorted with child 1 first. -/
theorem merge_canonical_ordering_witness :
    ∃ b, merge exampleTemplate [commitB, commitA] = .ok b ∧
      merge exampleTemplate [commitA, commitB] = .ok b ∧
      List.Sorted commitLE b.signerCommitments ∧
      List.Perm b.signerCommitments [commitB, commitA] :=
  merge_canonical_ordering exampleTemplate [commitB, commitA] [commitA, commitB]
    (by decide) (by decide) (by decide)

/-- C4: when a successful merge was fed several commitments for one
address, the output carries exactly one entry for that address,
namely the commitment appearing last in the input sequence. -/
theorem merge_dedup_last_wins (t : BatchTemplate)
    (cs : List SignerCommitment) (b : BatchTransaction) (a : Addr)
    (c : SignerCommitment)
    (hm : merge t cs = .ok b)
    (_hdup : 2 ≤ (cs.filter (fun x => decide (x.signerAddress = a))).length)
    (hlast : cs.reverse.find? (fun x => decide (x.signerAddress = a)) = some c) :
    b.signerCommitments.filter (fun x => decide (x.signerAddress = a)) = [c] := by
  obtain ⟨hb, -⟩ := merge_ok_elim hm
  rw [hb]
  have hperm : List.Perm
      ((List.insertionSort commitLE (dedupLastWins cs)).filter
        (fun x => decide (x.signerAddress = a)))
      ((dedupLastWins cs).filter (fun x => decide (x.signerAddress = a))) :=
    List.Perm.filter _ (List.perm_insertionSort commitLE (dedupLastWins cs))
  rw [filter_dedupLastWins cs a, hlast] at hperm
  exact List.perm_singleton.mp hperm

/-- Witness for C4: child 1's original and reissued commitments both
supplied; the merged batch keeps only the reissued one. -/
theorem merge_dedup_last_wins_witness :
    ∃ b, merge exampleTemplate [commitA, commitA2] = .ok b ∧
      b.signerCommitments.filter
        (fun x => decide (x.signerAddress = "rChild1")) = [commitA2] := by
  have hm : merge exampleTemplate [commitA, commitA2] =
      .ok ⟨"rParent", 262144, [innerPay1, innerPay2], [commitA2]⟩ := by decide
  exact ⟨_, hm, merge_dedup_last_wins exampleTemplate [commitA, commitA2] _
    "rChild1" commitA2 hm (by decide) (by decide)⟩

/-- C5: commitments produced against a template all fail verification
against any template whose authorization flags or inner transactions
differ, and merging them against the modified template returns an
invalid-signer-commitment error naming one of their addresses rather
than any batch. -/
theorem merge_tamper_detection (t t' : BatchTemplate)
    (cs : List SignerCommitment)
    (hne : cs ≠ [])
    (hprod : ∀ c ∈ cs, ∃ a kp, commit t a kp = .ok c)
    (hdiff : t'.authorizationFlags ≠ t.authorizationFlags ∨
      t'.innerTransactions ≠ t.innerTransactions) :
    (∀ c ∈ cs, verifyCommitment t' c = false) ∧
    ∃ a, merge t' cs = .error (.invalidSignerCommitment a) ∧
      a ∈ cs.map SignerCommitment.signerAddress := by
  have hver : ∀ c ∈ cs, verifyCommitment t' c = false := by
    intro c hc
    obtain ⟨a, kp, hcommit⟩ := hprod c hc
    have hshape : c = ⟨a, kp.pub, signDigest kp (deriveDigest t)⟩ := by
      unfold commit at hcommit
      split_ifs at hcommit with h1 h2 h3
      cases hcommit
      rfl
    have hd : deriveDigest t' ≠ deriveDigest t := by
      unfold deriveDigest
      intro hcontra
      injection hcontra with hd1 hd2 hd3
      rcases hdiff with h | h
      · exact h hd2
      · exact h hd3
    rw [hshape]
    unfold verifyCommitment verifySig signDigest
    apply decide_eq_false
    rintro ⟨-, hdig⟩
    exact hd hdig.symm
  refine ⟨hver, ?_⟩
  have hsne : List.insertionSort commitLE (dedupLastWins cs) ≠ [] := by
    intro h0
    have hp := List.perm_insertionSort commitLE (dedupLastWins cs)
    rw [h0] at hp
    exact dedupLastWins_ne_nil hne hp.symm.eq_nil
  have hall : ∀ x ∈ List.insertionSort commitLE (dedupLastWins cs),
      (fun c => !(verifyCommitment t' c)) x = true := by
    intro x hx
    have hxcs : x ∈ cs := mem_of_mem_dedupLastWins
      ((List.perm_insertionSort commitLE (dedupLastWins cs)).subset hx)
    simp [hver x hxcs]
  obtain ⟨x, hfind, hxmem⟩ := find?_some_of_all hsne hall
  refine ⟨x.signerAddress, ?_, ?_⟩
  · unfold merge
    rw [hfind]
  · exact List.mem_map_of_mem SignerCommitment.signerAddress
      (mem_of_mem_dedupLastWins
        ((List.perm_insertionSort commitLE (dedupLastWins cs)).subset hxmem))

/-- The example template with its policy flag moved to onlyOne:
a single flipped flag region relative to exampleTemplate. -/
def tamperedTemplate : BatchTemplate := ⟨"rParent", 131072, [innerPay1, innerPay2]⟩

/-- Witness for C5: child 1's commitment to the example template no
longer verifies against the tampered template and merging it there
fails naming child 1. -/
theorem merge_tamper_detection_witness :
    (∀ c ∈ [commitA], verifyCommitment tamperedTemplate c = false) ∧
    ∃ a, merge tamperedTemplate [commitA] =
        .error (.invalidSignerCommitment a) ∧
      a ∈ ([commitA].map SignerCommitment.signerAddress) :=
  merge_tamper_detection exampleTemplate tamperedTemplate [commitA]
    (by decide)
    (fun c hc => by
      rw [List.mem_singleton.mp hc]
      exact ⟨"rChild1", kpChild1, by decide⟩)
    (by decide)

/-- C7: the signing call site copies the batch object before the
signing step writes its BatchSigners field, so the original object
and the shared inner-transaction store are untouched by commitment
generation, and a successful merge returns a copy carrying the
template's submitter, flags and inner transactions unchanged. -/
theorem commit_merge_no_mutation (h h' : Heap) (i j : Nat) (a : Addr)
    (kp : Keypair) (c : SignerCommitment) (t : BatchTemplate)
    (cs : List SignerCommitment) (b : BatchTransaction)
    (hi : i < h.objs.length)
    (hrun : generateSignatureRun h i a kp = .ok (h', j, c))
    (hm : merge t cs = .ok b) :
    h'.objs.getD i default = h.objs.getD i default ∧
    h'.inners = h.inners ∧
    templOf h' i = templOf h i ∧ i ≠ j ∧
    b.submitterAddress = t.submitterAddress ∧
    b.authorizationFlags = t.authorizationFlags ∧
    b.innerTransactions = t.innerTransactions := by
  have hij : i ≠ h.objs.length := Nat.ne_of_lt hi
  simp only [generateSignatureRun] at hrun
  cases hcommit : commit (templOf (spreadCopy h i).1 (spreadCopy h i).2) a kp with
  | error e =>
    rw [hcommit] at hrun
    cases hrun
  | ok c0 =>
    rw [hcommit] at hrun
    injection hrun with hpair
    injection hpair with hh hrest
    injection hrest with hj hc
    have hobjs : h'.objs.getD i default = h.objs.getD i default := by
      rw [← hh]
      unfold setBatchSigners spreadCopy
      simp only []
      rw [getD_set_ne _ _ _ _ _ hij, getD_append_lt _ _ _ _ hi]
    have hinn : h'.inners = h.inners := by
      rw [← hh]
      rfl
    refine ⟨hobjs, hinn, ?_, ?_, ?_⟩
    · unfold templOf
      rw [hobjs, hinn]
    · rw [← hj]
      exact hij
    · obtain ⟨hb, -⟩ := merge_ok_elim hm
      rw [hb]
      exact ⟨rfl, rfl, rfl⟩

/-- One-object heap holding the example template content. -/
def exampleHeap : Heap := ⟨[⟨"rParent", 262144, 0, none⟩], [[innerPay1, innerPay2]]⟩

/-- The heap after the signing run: the original object at address 0
untouched, the signed copy appended at address 1. -/
def exampleHeapAfter : Heap :=
  ⟨[⟨"rParent", 262144, 0, none⟩, ⟨"rParent", 262144, 0, some [commitA]⟩],
   [[innerPay1, innerPay2]]⟩

/-- Witness for C7 on the one-object example heap and a single-signer
merge. -/
theorem commit_merge_no_mutation_witness :
    exampleHeapAfter.objs.getD 0 default = exampleHeap.objs.getD 0 default ∧
    exampleHeapAfter.inners = exampleHeap.inners ∧
    templOf exampleHeapAfter 0 = templOf exampleHeap 0 ∧ (0 : Nat) ≠ 1 ∧
    BatchTransaction.submitterAddress
        ⟨"rParent", 262144, [innerPay1, innerPay2], [commitA]⟩ =
      exampleTemplate.submitterAddress ∧
    BatchTransaction.authorizationFlags
        ⟨"rParent", 262144, [innerPay1, innerPay2], [commitA]⟩ =
      exampleTemplate.authorizationFlags ∧
    BatchTransaction.innerTransactions
        ⟨"rParent", 262144, [innerPay1, innerPay2], [commitA]⟩ =
      exampleTemplate.innerTransactions :=
  commit_merge_no_mutation exampleHeap exampleHeapAfter 0 1 "rChild1" kpChild1
    commitA exampleTemplate [commitA]
    ⟨"rParent", 262144, [innerPay1, innerPay2], [commitA]⟩
    (by decide) (by decide) (by decide)

/-- Witness for C9: a 25-character seed starting with s is accepted,
a number is rejected. -/
theorem validateSeed_characterization_witness :
    validateSeed (JsVal.str "sABCDEFGHIJKLMNOPQRSTUVWX") = .ok () ∧
    ∃ m, validateSeed (JsVal.num 7) = .error m :=
  ⟨(validateSeed_characterization (JsVal.str "sABCDEFGHIJKLMNOPQRSTUVWX")).1.mpr
      ⟨_, rfl, by decide, by decide⟩,
   (validateSeed_characterization (JsVal.num 7)).2
      (by rintro ⟨s, hs, -, -⟩; cases hs)⟩
